import Mathlib

/-!
Shallow embedding of the MP_webimage backend (src/backend/{db.py, app.py,
wb_parser.py}) for checking the natural-language specification.

Modelling conventions:
* a SQL table is a `List Row`; a SQL `NULL`able column is an `Option`;
* Python/MySQL floats and decimals are modelled as `ℚ` (the arithmetic the
  claims concern is exact on the values involved);
* `NOW()` is an abstract timestamp `now : Nat` (seconds);
* module-level configuration read from the environment
  (`STALE_HOURS`, `UI_WALLET_PERCENT`, `UI_ROUND_THRESHOLD`, `UI_ROUND_STEP`,
  `BATCH_REFRESH_LIMIT`) is passed as explicit parameters;
* SQL `ORDER BY` is modelled with `List.insertionSort` (a stable sort, like
  the deterministic orders the queries request).
-/

namespace MPWeb

/-- One row of the products table (columns as selected by `_row_to_dict`
in db.py): nullable columns are `Option`. -/
structure Row where
  nm_id : Nat
  brand : String
  title : String
  seller_id : Option Int
  seller_name : Option String
  price_before : Option ℚ
  price_after : Option ℚ
  ui_price : Option Int
  rrc : Option ℚ
  updated_at : Option Nat
  sales_24h : Option Int
deriving DecidableEq, Repr

/-- WHERE clause of `list_sellers_with_violations` (db.py lines 359-367):
`ui_price IS NOT NULL AND ui_price > 0 AND rrc IS NOT NULL AND rrc > 0
AND ui_price < rrc`.  Note: the raw discounted price is NOT consulted here. -/
def violUi (r : Row) : Bool :=
  match r.ui_price, r.rrc with
  | some u, some c => decide (0 < u) && decide (0 < c) && decide ((u : ℚ) < c)
  | _, _ => false

/-- WHERE clause of `count_violations` / `list_products_page_violations`
(db.py lines 503-509): `rrc > 0 AND ((ui_price > 0 AND ui_price < rrc) OR
(price_after_seller_discount > 0 AND price_after_seller_discount < rrc))`. -/
def violOr (r : Row) : Bool :=
  match r.rrc with
  | none => false
  | some c =>
    decide (0 < c) &&
      ((match r.ui_price with
        | some u => decide (0 < u) && decide ((u : ℚ) < c)
        | none => false) ||
       (match r.price_after with
        | some p => decide (0 < p) && decide (p < c)
        | none => false))

/-- Rows of the table that the seller-level violation query groups over. -/
def violRows (db : List Row) : List Row :=
  db.filter violUi

/-- SQL `COUNT(*)` of `count_violations` (db.py lines 501-520). -/
def count_violations (db : List Row) : Nat :=
  (db.filter violOr).length

/-- SQL `MAX(seller_name)` aggregate: maximum of the non-NULL names,
`NULL` when every name is `NULL`. -/
def maxName (l : List (Option String)) : Option String :=
  l.foldl
    (fun acc s =>
      match acc, s with
      | none, s => s
      | some t, none => some t
      | some t, some s => some (if t < s then s else t))
    none

/-- One entry of the result of `list_sellers_with_violations`. -/
structure SellerViol where
  seller_id : Option Int
  seller_name : Option String
  violations : Nat
deriving DecidableEq, Repr

/-- Descending order on the violation count (SQL `ORDER BY cnt DESC`). -/
def violDesc (a b : SellerViol) : Prop :=
  b.violations ≤ a.violations

instance : DecidableRel violDesc := fun a b => Nat.decLe b.violations a.violations

/-- db.py `list_sellers_with_violations` (lines 356-381): filter by the
display-price check `violUi`, `GROUP BY seller_id` with `COUNT(*)` and
`MAX(seller_name)`, `ORDER BY cnt DESC`. -/
def list_sellers_with_violations (db : List Row) : List SellerViol :=
  let viols := violRows db
  let sellers := (viols.map (·.seller_id)).dedup
  let entries := sellers.map fun sid =>
    let rows := viols.filter fun r => decide (r.seller_id = sid)
    { seller_id := sid
      seller_name := maxName (rows.map (·.seller_name))
      violations := rows.length : SellerViol }
  entries.insertionSort violDesc

/-- Modelled from the spec: the seller-level violation list as the claim
words it, counting a product via the dual condition `violOr` (display price
OR raw discounted price below the floor).  Used only to compare against
`list_sellers_with_violations`, which is translated from the source. -/
def list_sellers_with_violations_spec (db : List Row) : List SellerViol :=
  let viols := db.filter violOr
  let sellers := (viols.map (·.seller_id)).dedup
  let entries := sellers.map fun sid =>
    let rows := viols.filter fun r => decide (r.seller_id = sid)
    { seller_id := sid
      seller_name := maxName (rows.map (·.seller_name))
      violations := rows.length : SellerViol }
  entries.insertionSort violDesc

/-- db.py `_where_need_refresh` (lines 253-257), evaluated on one row:
`price_after_seller_discount IS NULL OR price_after_seller_discount = 0`,
widened, when `STALE_HOURS > 0`, by
`updated_at IS NULL OR updated_at < NOW() - INTERVAL STALE_HOURS HOUR`. -/
def needRefresh (stale now : Nat) (r : Row) : Bool :=
  let base := r.price_after.isNone || decide (r.price_after = some 0)
  if 0 < stale then
    base || r.updated_at.isNone ||
      (match r.updated_at with
       | some t => decide (t + stale * 3600 < now)
       | none => false)
  else base

/-- Sort key of `list_nm_ids_for_refresh`:
`ORDER BY (updated_at IS NULL) DESC, updated_at ASC, nm_id ASC`.
NULL-updated rows first, then older timestamps, ties by id. -/
def refreshKey (r : Row) : Nat × Nat × Nat :=
  ((if r.updated_at.isNone then 0 else 1), r.updated_at.getD 0, r.nm_id)

/-- Lexicographic order on the refresh sort key. -/
def keyLe (a b : Nat × Nat × Nat) : Prop :=
  a.1 < b.1 ∨ (a.1 = b.1 ∧ (a.2.1 < b.2.1 ∨ (a.2.1 = b.2.1 ∧ a.2.2 ≤ b.2.2)))

instance : DecidableRel keyLe := fun a b => by
  unfold keyLe; infer_instance

/-- Row order used by `list_nm_ids_for_refresh`. -/
def refreshLe (a b : Row) : Prop :=
  keyLe (refreshKey a) (refreshKey b)

instance : DecidableRel refreshLe := fun a b => by
  unfold refreshLe; infer_instance

/-- db.py `list_nm_ids_for_refresh` (lines 259-279): WHERE `_where_need_refresh`,
ORDER BY the refresh key, `LIMIT limit`, selecting `nm_id`. -/
def list_nm_ids_for_refresh (stale now limit : Nat) (db : List Row) : List Nat :=
  ((((db.filter (needRefresh stale now)).insertionSort refreshLe).map (·.nm_id)).take limit)

/-- db.py `count_needing_refresh` (lines 281-295). -/
def count_needing_refresh (stale now : Nat) (db : List Row) : Nat :=
  (db.filter (needRefresh stale now)).length

/-- db.py `list_nm_ids_any` (lines 297-315):
`SELECT nm_id ORDER BY nm_id ASC LIMIT limit OFFSET offset`. -/
def list_nm_ids_any (limit offset : Nat) (db : List Row) : List Nat :=
  ((((db.map (·.nm_id)).insertionSort (· ≤ ·)).drop offset).take limit)

/-- db.py `count_all_rows` (lines 317-330). -/
def count_all_rows (db : List Row) : Nat :=
  db.length

/-- Arguments of db.py `upsert_product` (lines 77-115); `table` is implicit
in the `List Row` the operation is applied to, `sales_24h` defaults to
`none` exactly as the Python default. -/
structure UpsertArgs where
  nm_id : Nat
  brand : String
  title : String
  price_before : ℚ
  price_after : ℚ
  seller_id : Option Int
  seller_name : Option String
  ui_price : Option Int
  sales_24h : Option Int
deriving DecidableEq, Repr

/-- db.py `upsert_product` (lines 77-115): `INSERT ... ON DUPLICATE KEY
UPDATE` keyed on `nm_id`.  The update branch overwrites the descriptive,
seller and price columns, sets `updated_at = NOW()`, keeps `rrc` untouched,
and sets `sales_24h = COALESCE(VALUES(sales_24h), sales_24h)`; the insert
branch leaves `rrc` at its column default `NULL`. -/
def upsert_product (now : Nat) (a : UpsertArgs) (db : List Row) : List Row :=
  if db.any fun r => decide (r.nm_id = a.nm_id) then
    db.map fun r =>
      if r.nm_id = a.nm_id then
        { r with
          brand := a.brand
          title := a.title
          seller_id := a.seller_id
          seller_name := a.seller_name
          price_before := some a.price_before
          price_after := some a.price_after
          ui_price := a.ui_price
          updated_at := some now
          sales_24h :=
            match a.sales_24h with
            | some v => some v
            | none => r.sales_24h }
      else r
  else
    db ++ [{ nm_id := a.nm_id
             brand := a.brand
             title := a.title
             seller_id := a.seller_id
             seller_name := a.seller_name
             price_before := some a.price_before
             price_after := some a.price_after
             ui_price := a.ui_price
             rrc := none
             updated_at := some now
             sales_24h := a.sales_24h }]

/-- db.py `set_rrc` (lines 117-129):
`UPDATE t SET rrc = v, updated_at = NOW() WHERE nm_id = id`. -/
def set_rrc (now : Nat) (nmId : Nat) (v : Option ℚ) (db : List Row) : List Row :=
  db.map fun r =>
    if r.nm_id = nmId then { r with rrc := v, updated_at := some now } else r

/-- app.py `calc_ui_price_from_product` (lines 73-92), parametrised by the
environment configuration `UI_WALLET_PERCENT` / `UI_ROUND_THRESHOLD` /
`UI_ROUND_STEP`.  On `ℚ` the arithmetic raises no exception, so the
Python `except: return None` branch is unreachable in the model. -/
def calc_ui_price_from_product (wallet thr step0 : ℚ) (base_price : Option ℚ) :
    Option Int :=
  match base_price with
  | none => none
  | some base =>
    if base ≤ 0 then none
    else
      let step : ℚ := if 0 < step0 then step0 else 1
      let raw : ℚ := if 0 < wallet then base * (1 - wallet) else base
      let ui : ℚ :=
        if 0 < thr ∧ thr ≤ base then (⌊raw / step⌋ : ℚ) * step else raw
      some ⌊ui⌋

/-- Modelled from the spec: the display-price reference definition as the
claim words it — `floor(adjusted / round_step) * round_step` in the
rounding branch (with no final integer truncation), `floor(adjusted)`
otherwise.  Used only to compare against `calc_ui_price_from_product`,
which is translated from the source. -/
def calc_ui_price_spec (wallet thr step0 : ℚ) (base_price : Option ℚ) :
    Option ℚ :=
  match base_price with
  | none => none
  | some base =>
    if base ≤ 0 then none
    else
      let step : ℚ := if 0 < step0 then step0 else 1
      let adjusted : ℚ := if 0 < wallet then base * (1 - wallet) else base
      if 0 < thr ∧ thr ≤ base then some ((⌊adjusted / step⌋ : ℚ) * step)
      else some (⌊adjusted⌋ : ℚ)

/-- Successful result of wb_parser.py `fetch_wb_price`: the dict it returns
(`nm_id`, `brand`, `title`, the two prices, seller fields).  The two price
fields are always numbers (never `None`) on the success path. -/
structure Fetched where
  nm_id : Nat
  brand : String
  title : String
  price_before : ℚ
  price_after : ℚ
  seller_id : Option Int
  seller_name : Option String
deriving DecidableEq, Repr

/-- app.py `do_one_batch` lines 355-358: after
`price_before = float(... or 0)`, `price_after = float(... or 0)`,
`if price_before <= 0 and price_after <= 0: price_before, price_after = 0.0, -1.0`. -/
def reconcilePrices (pb pa : ℚ) : ℚ × ℚ :=
  if pb ≤ 0 ∧ pa ≤ 0 then (0, -1) else (pb, pa)

/-- Loop body of app.py `do_one_batch` (lines 352-379) over the selected
ids, threading the table state and accumulating `updated` and `errors` in
processing order.  `heur` stands for the title-derived floor-price
heuristic `calc_rrc_from_title` (an external collaborator per the spec);
`fetch` is the Price Source oracle: `.error` is a raised fetch exception,
caught per item. -/
def processIds (heur : String → Option ℚ) (fetch : Nat → Except String Fetched)
    (wallet thr step : ℚ) (now : Nat) :
    List Nat → List Row → List Row × List Nat × List (Nat × String)
  | [], db => (db, [], [])
  | id :: rest, db =>
    match fetch id with
    | .error e =>
      let res := processIds heur fetch wallet thr step now rest db
      (res.1, res.2.1, (id, e) :: res.2.2)
    | .ok d =>
      let pb := (reconcilePrices d.price_before d.price_after).1
      let pa := (reconcilePrices d.price_before d.price_after).2
      let ui := calc_ui_price_from_product wallet thr step (some pa)
      let db1 := upsert_product now
        { nm_id := d.nm_id
          brand := d.brand
          title := d.title
          price_before := pb
          price_after := pa
          seller_id := d.seller_id
          seller_name := d.seller_name
          ui_price := ui
          sales_24h := none } db
      let db2 :=
        match heur d.title with
        | some v => set_rrc now id (some v) db1
        | none => db1
      let res := processIds heur fetch wallet thr step now rest db2
      (res.1, id :: res.2.1, res.2.2)

/-- app.py `do_one_batch` (lines 348-382): select up to `limit` due ids,
process each, then recompute the remaining-due count. -/
def do_one_batch (heur : String → Option ℚ) (fetch : Nat → Except String Fetched)
    (wallet thr step : ℚ) (stale now limit : Nat) (db : List Row) :
    List Row × List Nat × List (Nat × String) × Nat :=
  let ids := list_nm_ids_for_refresh stale now limit db
  let res := processIds heur fetch wallet thr step now ids db
  (res.1, res.2.1, res.2.2, count_needing_refresh stale now res.1)

/-- Observable state the refresh endpoint acts on: the products table, the
catalog-scoped advisory lock (`{table}_refresh_full_lock`), and counters of
the externally visible effects (Price Source fetches, store upserts). -/
structure World where
  db : List Row
  lockHeld : Bool
  fetches : Nat
  upserts : Nat
deriving DecidableEq, Repr

/-- db.py `acquire_advisory_lock` with `timeout=0` (lines 523-535):
`GET_LOCK` returns 0 when the lock is already held, else takes it. -/
def acquire_advisory_lock (w : World) : Bool × World :=
  if w.lockHeld then (false, w) else (true, { w with lockHeld := true })

/-- db.py `release_advisory_lock` (lines 537-547). -/
def release_advisory_lock (w : World) : World :=
  { w with lockHeld := false }

/-- One `do_one_batch` call lifted to `World`: every selected id costs one
Price Source fetch, every successful item one upsert. -/
def doOneBatchW (heur : String → Option ℚ) (fetch : Nat → Except String Fetched)
    (wallet thr step : ℚ) (stale now limit : Nat) (w : World) :
    World × List Nat × List (Nat × String) × Nat :=
  let res := do_one_batch heur fetch wallet thr step stale now limit w.db
  ({ w with
      db := res.1
      fetches := w.fetches + res.2.1.length + res.2.2.1.length
      upserts := w.upserts + res.2.1.length },
   res.2.1, res.2.2.1, res.2.2.2)

/-- Full-sweep loop of app.py `refresh_batch` (lines 418-429): repeat
`do_one_batch` until `remaining == 0` or the `MAX_LOOPS = 10000` safety cap
is hit; returns the world plus `(updated_total, errors_total,
errors_last_batch)`. -/
def fullLoop (heur : String → Option ℚ) (fetch : Nat → Except String Fetched)
    (wallet thr step : ℚ) (stale now limit : Nat) :
    Nat → World → World × Nat × Nat × List (Nat × String)
  | 0, w => (w, 0, 0, [])
  | fuel + 1, w =>
    let res := doOneBatchW heur fetch wallet thr step stale now limit w
    if res.2.2.2 = 0 then (res.1, res.2.1.length, res.2.2.1.length, res.2.2.1)
    else
      let res2 := fullLoop heur fetch wallet thr step stale now limit fuel res.1
      (res2.1, res.2.1.length + res2.2.1, res.2.2.1.length + res2.2.2.1, res2.2.2.2)

/-- Advisory-lock discipline of the full-sweep branch of app.py
`refresh_batch` (lines 407-450): zero-wait acquire; on failure return at
once reporting `locked`; on success run the `try` body and release the
lock in the `finally`, on the normal exit and on the exception exit alike.
The body is an arbitrary computation that either finishes with a world or
is interrupted by an exception carrying the world at that point; the
returned flags are `(locked, errored)`. -/
def withCatalogLock (body : World → Except (String × World) World) (w : World) :
    World × Bool × Bool :=
  match acquire_advisory_lock w with
  | (false, w') => (w', true, false)
  | (true, w1) =>
    match body w1 with
    | .ok w2 => (release_advisory_lock w2, false, false)
    | .error (_, w2) => (release_advisory_lock w2, false, true)

/-- Query parameters of `POST /api/products/refresh-batch` as the handler
could receive them.  `force` and `offset` are included because the claimed
paginated forced variant would read them; app.py lines 340-344 read only
`limit`, `silent` and `full`. -/
structure Req where
  limit : Option Int
  silent : Bool
  full : Bool
  force : Bool
  offset : Nat
deriving DecidableEq, Repr

/-- app.py line 342: `limit = int(request.args.get("limit", BATCH_REFRESH_LIMIT))`
— a missing parameter falls back to the configured default, a supplied
value is passed through as parsed, with no clamping. -/
def resolveLimit (batchDefault : Int) (arg : Option Int) : Int :=
  arg.getD batchDefault

/-- JSON body of the refresh-batch response, one constructor per `jsonify`
site of the handler (incremental report, `{"ok": true, "locked": true}`,
full-sweep report). -/
inductive Resp where
  | incremental (requested : Int) (selected updatedCount : Nat) (updated : List Nat)
      (errorsCount : Nat) (errors : List (Nat × String)) (remaining : Nat)
      (done : Bool) (locked : Bool)
  | lockedResp
  | fullResp (updatedTotal errorsTotal : Nat) (errorsLast : List (Nat × String))
      (remaining : Nat) (done : Bool) (locked : Bool)
deriving DecidableEq, Repr

/-- app.py `refresh_batch` handler (lines 334-453).  Alert dispatch
(`send_violation_alert`) is an external collaborator with no effect on the
store, the lock or the response body, so it is not modelled.  A negative
resolved limit makes MySQL reject the `LIMIT` clause; the handler is only
reasoned about at non-negative limits, where `Int.toNat` is exact. -/
def refresh_batch (heur : String → Option ℚ) (fetch : Nat → Except String Fetched)
    (wallet thr step : ℚ) (stale : Nat) (batchDefault : Int) (now : Nat)
    (req : Req) (w : World) : World × Resp :=
  let limit := resolveLimit batchDefault req.limit
  if req.full then
    match acquire_advisory_lock w with
    | (false, w') => (w', .lockedResp)
    | (true, w1) =>
      let res := fullLoop heur fetch wallet thr step stale now limit.toNat 10000 w1
      let rem := count_needing_refresh stale now res.1.db
      (release_advisory_lock res.1,
       .fullResp res.2.1 res.2.2.1 res.2.2.2 rem (rem = 0) false)
  else
    let res := doOneBatchW heur fetch wallet thr step stale now limit.toNat w
    (res.1,
     .incremental limit (res.2.1.length + res.2.2.1.length) res.2.1.length res.2.1
       res.2.2.1.length res.2.2.1 res.2.2.2 (res.2.2.2 = 0) false)

/-- JSON value of a price field inside a Wildberries card size entry:
either a number or some non-numeric value (the Python code checks
`isinstance(..., (int, float))`). -/
inductive JNum where
  | num (q : ℚ)
  | other
deriving DecidableEq, Repr

/-- Optional `price` dict of one size entry, with optional `basic` and
`product` fields. -/
structure WbSizePrice where
  basic : Option JNum
  product : Option JNum
deriving DecidableEq, Repr

/-- One entry of the card's `sizes` array; the entry itself and its
`price` field may be null (`(s or {}).get("price") or {}`). -/
structure WbSize where
  price : Option WbSizePrice
deriving DecidableEq, Repr

/-- Product card of the Wildberries response consumed by `fetch_wb_price`. -/
structure WbProduct where
  brand : String
  name : String
  supplierId : Option Int
  supplier : Option String
  sizes : List (Option WbSize)
deriving DecidableEq, Repr

/-- Validity test of one size entry in wb_parser.py lines 41-50:
`pr = (s or {}).get("price") or {}`, then both `basic` and `product`
`isinstance(..., (int, float))` and `> 0`; on success the raw pair. -/
def sizeValidPrice (s : Option WbSize) : Option (ℚ × ℚ) :=
  let pr := (s.getD { price := none }).price.getD { basic := none, product := none }
  match pr.basic, pr.product with
  | some (.num b), some (.num p) =>
    if 0 < b ∧ 0 < p then some (b, p) else none
  | _, _ => none

/-- Size-scan loop of wb_parser.py `fetch_wb_price` (lines 38-55): take the
first size whose `basic` and `product` prices are both numbers `> 0` and
divide them by 100; if none qualifies, return the sentinel pair
`(0, -1)`. -/
def extractPrices : List (Option WbSize) → ℚ × ℚ
  | [] => (0, -1)
  | s :: rest =>
    match sizeValidPrice s with
    | some (b, p) => (b / 100, p / 100)
    | none => extractPrices rest

/-- wb_parser.py `fetch_wb_price` (lines 13-65) on a successfully parsed
card: builds the returned dict.  The not-found and transport failures
raise before this point and are the `.error` case of the fetch oracle. -/
def fetch_wb_price (nmId : Nat) (prod : WbProduct) : Fetched :=
  let (pb, pa) := extractPrices prod.sizes
  { nm_id := nmId
    brand := prod.brand
    title := prod.name
    price_before := pb
    price_after := pa
    seller_id := prod.supplierId
    seller_name := prod.supplier }

/-! ## Helper lemmas -/

/-- The step used by the display-price calculator is always positive. -/
lemma stepPos (step0 : ℚ) : (0 : ℚ) < if 0 < step0 then step0 else 1 := by
  split
  · assumption
  · norm_num

/-- Rounding down to a multiple of a positive step never increases a value. -/
lemma floor_mul_step_le (x step : ℚ) (hs : 0 < step) :
    (⌊x / step⌋ : ℚ) * step ≤ x := by
  have h1 : (⌊x / step⌋ : ℚ) ≤ x / step := Int.floor_le _
  calc (⌊x / step⌋ : ℚ) * step ≤ (x / step) * step :=
        mul_le_mul_of_nonneg_right h1 (le_of_lt hs)
    _ = x := div_mul_cancel₀ x (ne_of_gt hs)

/-! ## C3: full-sweep advisory locking -/

/-- C3.  In full-sweep mode (`full=1`), when the catalog-scoped advisory
lock is already held, `refresh_batch` returns at once reporting
`locked = true` with the world untouched (so zero fetches and zero
upserts); and whenever the lock is acquired, it is released on every exit
path of the guarded body — the normal one and the one interrupted by an
exception alike. -/
theorem refresh_batch_full_locking :
    (∀ (heur : String → Option ℚ) (fetch : Nat → Except String Fetched)
        (wallet thr step : ℚ) (stale : Nat) (batchDefault : Int) (now : Nat)
        (req : Req) (w : World), req.full = true → w.lockHeld = true →
        refresh_batch heur fetch wallet thr step stale batchDefault now req w =
          (w, .lockedResp)) ∧
    (∀ (body : World → Except (String × World) World) (w : World),
        w.lockHeld = false → ((withCatalogLock body w).1).lockHeld = false) :=
  by
  constructor
  · intro heur fetch wallet thr step stale batchDefault now req w hfull hlock
    simp [refresh_batch, acquire_advisory_lock, hfull, hlock]
  · intro body w hlock
    simp only [withCatalogLock, acquire_advisory_lock, hlock]
    simp only [Bool.false_eq_true, if_false]
    cases body { w with lockHeld := true } with
    | ok w2 => simp [release_advisory_lock]
    | error p => simp [release_advisory_lock]

/-- Witness for C3 at a concrete locked world and a concrete body that is
interrupted by an exception. -/
theorem refresh_batch_full_locking_witness :
    (refresh_batch (fun _ => none) (fun _ => .error "down") 0 0 1 0 20 0
        { limit := none, silent := true, full := true, force := false, offset := 0 }
        { db := [], lockHeld := true, fetches := 0, upserts := 0 } =
      ({ db := [], lockHeld := true, fetches := 0, upserts := 0 }, .lockedResp)) ∧
    ((withCatalogLock (fun w => .error ("boom", w))
        { db := [], lockHeld := false, fetches := 0, upserts := 0 }).1).lockHeld = false :=
  ⟨refresh_batch_full_locking.1 (fun _ => none) (fun _ => .error "down") 0 0 1 0 20 0
      { limit := none, silent := true, full := true, force := false, offset := 0 }
      { db := [], lockHeld := true, fetches := 0, upserts := 0 } rfl rfl,
   refresh_batch_full_locking.2 (fun w => .error ("boom", w))
      { db := [], lockHeld := false, fetches := 0, upserts := 0 } rfl⟩

/-! ## C5: batch-limit resolution -/

/-- Counterexample for C5.  The handler resolves a supplied limit of `0`
to `0` — it is not clamped to the configured default (`20` here) — and the
due-selection query then runs with that limit: on a catalog with one due
row the call selects nothing and reports `requested = 0`, `remaining = 1`. -/
theorem resolveLimit_counterexample :
    resolveLimit 20 (some 0) = 0 ∧ (0 : Int) ≠ 20 ∧
    refresh_batch (fun _ => none) (fun _ => .error "x") 0 0 1 0 20 0
        { limit := some 0, silent := true, full := false, force := false, offset := 0 }
        { db := [{ nm_id := 1, brand := "", title := "", seller_id := none,
                   seller_name := none, price_before := none, price_after := none,
                   ui_price := none, rrc := none, updated_at := none,
                   sales_24h := none }],
          lockHeld := false, fetches := 0, upserts := 0 } =
      ({ db := [{ nm_id := 1, brand := "", title := "", seller_id := none,
                  seller_name := none, price_before := none, price_after := none,
                  ui_price := none, rrc := none, updated_at := none,
                  sales_24h := none }],
         lockHeld := false, fetches := 0, upserts := 0 },
       .incremental 0 0 0 [] 0 [] 1 false false) := by
  refine ⟨rfl, by decide, ?_⟩
  decide

/-- C5 as amended.  The engine substitutes the configured default
(`BATCH_REFRESH_LIMIT`) only when the caller omits the limit; any supplied
value, including a non-positive one, is passed through unclamped to the
due-selection query. -/
theorem resolveLimit_amended :
    (∀ d : Int, resolveLimit d none = d) ∧
    (∀ d n : Int, resolveLimit d (some n) = n) :=
  ⟨fun _ => rfl, fun _ _ => rfl⟩

/-! ## C6: display-price calculator vs its reference definition -/

/-- Counterexample for C6.  With `wallet_percent = 0`,
`round_threshold = 10`, `round_step = 1/2` and base price `21/2`, the
reference formula `floor(adjusted / round_step) * round_step` yields
`21/2`, while the code's final `int(floor(ui))` truncation yields `10`. -/
theorem calc_ui_price_counterexample :
    (calc_ui_price_from_product 0 10 (1/2) (some (21/2))).map (fun z => (z : ℚ)) ≠
      calc_ui_price_spec 0 10 (1/2) (some (21/2)) := by
  have h1 : calc_ui_price_from_product 0 10 (1/2) (some (21/2)) = some 10 := by
    simp [calc_ui_price_from_product]
    norm_num
  have h2 : calc_ui_price_spec 0 10 (1/2) (some (21/2)) = some (21/2) := by
    simp [calc_ui_price_spec]
    norm_num
  rw [h1, h2]
  intro h
  have := Option.some.inj h
  norm_num at this

/-- C6 as amended.  The calculator equals the reference definition with
one addition the counterexample forces: a final integer floor is applied
to the rounded value (observable only when `round_step` is not an
integer).  Null and non-positive bases yield null, and the result never
exceeds the wallet-adjusted price (never rounds up). -/
theorem calc_ui_price_amended (wallet thr step0 : ℚ) (base : Option ℚ) :
    ((calc_ui_price_from_product wallet thr step0 base).map (fun z => (z : ℚ)) =
      (calc_ui_price_spec wallet thr step0 base).map (fun q => (⌊q⌋ : ℚ))) ∧
    (∀ b : ℚ, base = some b → b ≤ 0 →
      calc_ui_price_from_product wallet thr step0 base = none) ∧
    (∀ (b : ℚ) (r : Int), base = some b →
      calc_ui_price_from_product wallet thr step0 base = some r →
      (r : ℚ) ≤ (if 0 < wallet then b * (1 - wallet) else b)) := by
  refine ⟨?_, ?_, ?_⟩
  · cases base with
    | none => rfl
    | some b =>
      by_cases hb : b ≤ 0
      · simp [calc_ui_price_from_product, calc_ui_price_spec, hb]
      · by_cases hthr : 0 < thr ∧ thr ≤ b
        · simp [calc_ui_price_from_product, calc_ui_price_spec, hb, hthr]
        · simp [calc_ui_price_from_product, calc_ui_price_spec, hb, hthr,
            Int.floor_intCast]
  · intro b hbase hb
    subst hbase
    simp [calc_ui_price_from_product, hb]
  · intro b r hbase hr
    subst hbase
    by_cases hb : b ≤ 0
    · simp [calc_ui_price_from_product, hb] at hr
    · by_cases hthr : 0 < thr ∧ thr ≤ b
      · simp only [calc_ui_price_from_product, hb, if_false, hthr, if_true] at hr
        have hr' := Option.some.inj hr
        subst hr'
        have hs := stepPos step0
        calc ((⌊(⌊(if 0 < wallet then b * (1 - wallet) else b) /
                  (if 0 < step0 then step0 else 1)⌋ : ℚ) *
                  (if 0 < step0 then step0 else 1)⌋ : Int) : ℚ)
            ≤ (⌊(if 0 < wallet then b * (1 - wallet) else b) /
                  (if 0 < step0 then step0 else 1)⌋ : ℚ) *
                  (if 0 < step0 then step0 else 1) := Int.floor_le _
          _ ≤ (if 0 < wallet then b * (1 - wallet) else b) :=
              floor_mul_step_le _ _ hs
      · simp only [calc_ui_price_from_product, hb, if_false, hthr] at hr
        have hr' := Option.some.inj hr
        subst hr'
        exact Int.floor_le _

/-- Witness for C6 at `wallet = 1/10`, `thr = 100`, `step = 5`,
`base = 200`: adjusted is `180`, the rounded result `180`. -/
theorem calc_ui_price_amended_witness :
    ((calc_ui_price_from_product (1/10) 100 5 (some 200)).map (fun z => (z : ℚ)) =
      (calc_ui_price_spec (1/10) 100 5 (some 200)).map (fun q => (⌊q⌋ : ℚ))) ∧
    ((3 : ℚ) ≤ 0 → calc_ui_price_from_product (1/10) 100 5 (some 3) = none) ∧
    (calc_ui_price_from_product (1/10) 100 5 (some 200) = some 180 →
      ((180 : Int) : ℚ) ≤ (if (0:ℚ) < 1/10 then 200 * (1 - 1/10) else 200)) :=
  ⟨(calc_ui_price_amended (1/10) 100 5 (some 200)).1,
   fun h => by norm_num at h,
   fun h => (calc_ui_price_amended (1/10) 100 5 (some 200)).2.2 200 180 rfl h⟩

/-! ## C7: monotonicity of the display price -/

/-- Counterexample for C7.  With `wallet_percent = 0`,
`round_threshold = 100`, `round_step = 60`, the display price of base `99`
is `99` but the display price of base `100` is `60`: crossing the rounding
threshold makes the display price drop, so it is not monotone. -/
theorem calc_ui_price_monotone_counterexample :
    ¬ (∀ (wallet thr step0 b1 b2 : ℚ) (r1 r2 : Int), 0 < b1 → b1 ≤ b2 →
        calc_ui_price_from_product wallet thr step0 (some b1) = some r1 →
        calc_ui_price_from_product wallet thr step0 (some b2) = some r2 →
        r1 ≤ r2) := by
  intro h
  have e1 : calc_ui_price_from_product 0 100 60 (some 99) = some 99 := by
    simp [calc_ui_price_from_product]
    norm_num
  have e2 : calc_ui_price_from_product 0 100 60 (some 100) = some 60 := by
    simp [calc_ui_price_from_product]
    norm_num
  have := h 0 100 60 99 100 99 60 (by norm_num) (by norm_num) e1 e2
  norm_num at this

/-- C7 as amended.  With the wallet percentage in the configured range
`[0, 1]`, the display price is monotone non-decreasing in the base price
whenever the two bases lie on the same side of the rounding threshold
(in particular always when the threshold is disabled, `thr ≤ 0`);
monotonicity can fail only across the threshold boundary, as the
counterexample shows. -/
theorem calc_ui_price_monotone_amended (wallet thr step0 b1 b2 : ℚ) (r1 r2 : Int)
    (hw0 : 0 ≤ wallet) (hw1 : wallet ≤ 1) (hb : 0 < b1) (h12 : b1 ≤ b2)
    (hside : (thr ≤ b1 ↔ thr ≤ b2) ∨ thr ≤ 0)
    (e1 : calc_ui_price_from_product wallet thr step0 (some b1) = some r1)
    (e2 : calc_ui_price_from_product wallet thr step0 (some b2) = some r2) :
    r1 ≤ r2 := by
  have hb2 : 0 < b2 := lt_of_lt_of_le hb h12
  have hraw : (if 0 < wallet then b1 * (1 - wallet) else b1) ≤
      (if 0 < wallet then b2 * (1 - wallet) else b2) := by
    split
    · exact mul_le_mul_of_nonneg_right h12 (by linarith)
    · exact h12
  simp only [calc_ui_price_from_product, not_le.mpr hb, if_false,
    not_le.mpr hb2] at e1 e2
  have hcond : (0 < thr ∧ thr ≤ b1) ↔ (0 < thr ∧ thr ≤ b2) := by
    rcases hside with h | h
    · exact and_congr_right fun _ => h
    · constructor
      · rintro ⟨h1, _⟩; exact absurd h (not_le.mpr h1)
      · rintro ⟨h1, _⟩; exact absurd h (not_le.mpr h1)
  by_cases hc : 0 < thr ∧ thr ≤ b1
  · have hc2 : 0 < thr ∧ thr ≤ b2 := hcond.mp hc
    simp only [hc, if_true, hc2] at e1 e2
    have h1 := Option.some.inj e1
    have h2 := Option.some.inj e2
    subst h1; subst h2
    have hs := stepPos step0
    apply Int.floor_le_floor
    have hdiv : (if 0 < wallet then b1 * (1 - wallet) else b1) /
        (if 0 < step0 then step0 else 1) ≤
        (if 0 < wallet then b2 * (1 - wallet) else b2) /
        (if 0 < step0 then step0 else 1) :=
      (div_le_div_iff_of_pos_right hs).mpr hraw
    have hfl : (⌊(if 0 < wallet then b1 * (1 - wallet) else b1) /
        (if 0 < step0 then step0 else 1)⌋ : ℚ) ≤
        (⌊(if 0 < wallet then b2 * (1 - wallet) else b2) /
        (if 0 < step0 then step0 else 1)⌋ : ℚ) := by
      exact_mod_cast Int.floor_le_floor hdiv
    exact mul_le_mul_of_nonneg_right hfl (le_of_lt hs)
  · have hc2 : ¬ (0 < thr ∧ thr ≤ b2) := fun h => hc (hcond.mpr h)
    simp only [hc, if_false, hc2] at e1 e2
    have h1 := Option.some.inj e1
    have h2 := Option.some.inj e2
    subst h1; subst h2
    exact Int.floor_le_floor hraw

/-! ## C10: the price invariant of the Wildberries fetch -/

/-- A size accepted by the scan carries two strictly positive numbers. -/
lemma sizeValidPrice_pos (s : Option WbSize) (b p : ℚ)
    (h : sizeValidPrice s = some (b, p)) : 0 < b ∧ 0 < p := by
  simp only [sizeValidPrice] at h
  rcases hb : ((s.getD { price := none }).price.getD
      { basic := none, product := none }).basic with _ | jb
  · rw [hb] at h; exact absurd h (by simp)
  rcases hp : ((s.getD { price := none }).price.getD
      { basic := none, product := none }).product with _ | jp
  · rw [hb, hp] at h
    cases jb <;> exact absurd h (by simp)
  rw [hb, hp] at h
  cases jb with
  | other => exact absurd h (by simp)
  | num qb =>
    cases jp with
    | other => exact absurd h (by simp)
    | num qp =>
      simp only at h
      split at h
      · obtain ⟨h1, h2⟩ := Prod.mk.injEq .. ▸ Option.some.inj h
        subst h1; subst h2
        assumption
      · exact absurd h (by simp)

/-- The scanned price pair is either strictly positive in both components
or exactly the sentinel `(0, -1)`. -/
lemma extractPrices_spec (sizes : List (Option WbSize)) :
    (0 < (extractPrices sizes).1 ∧ 0 < (extractPrices sizes).2) ∨
    ((extractPrices sizes).1 = 0 ∧ (extractPrices sizes).2 = -1) := by
  induction sizes with
  | nil => exact Or.inr ⟨rfl, rfl⟩
  | cons s rest ih =>
    rcases hv : sizeValidPrice s with _ | ⟨b, p⟩
    · simpa [extractPrices, hv] using ih
    · have hpos := sizeValidPrice_pos s b p hv
      simp only [extractPrices, hv]
      exact Or.inl ⟨div_pos hpos.1 (by norm_num), div_pos hpos.2 (by norm_num)⟩

/-- The reconciled discounted price of a successful fetch is never `0`. -/
lemma reconcile_ne_zero (pb pa : ℚ)
    (h : (0 < pb ∧ 0 < pa) ∨ (pb = 0 ∧ pa = -1)) :
    (reconcilePrices pb pa).2 ≠ 0 := by
  unfold reconcilePrices
  rcases h with ⟨h1, h2⟩ | ⟨h1, h2⟩
  · rw [if_neg (by intro hc; exact absurd h1 (not_lt.mpr hc.1))]
    exact ne_of_gt h2
  · subst h1; subst h2
    norm_num

/-- A row holding a non-zero discounted price is not due when staleness
widening is disabled. -/
lemma needRefresh_of_pa_ne_zero (now : Nat) (r : Row) (x : ℚ)
    (hx : r.price_after = some x) (h : x ≠ 0) :
    needRefresh 0 now r = false := by
  simp [needRefresh, hx, h]

/-- C10.  Every successfully parsed fetch carries either two strictly
positive prices or exactly the sentinel pair `(0, -1)`; the discounted
price is never `0` (and never null, its field not being optional); the id
echoes the input; and after the batch loop's price reconciliation the
written row is no longer due when staleness widening is disabled. -/
theorem fetch_wb_price_contract (nmId : Nat) (prod : WbProduct) (now : Nat) :
    ((0 < (fetch_wb_price nmId prod).price_before ∧
        0 < (fetch_wb_price nmId prod).price_after) ∨
      ((fetch_wb_price nmId prod).price_before = 0 ∧
        (fetch_wb_price nmId prod).price_after = -1)) ∧
    (fetch_wb_price nmId prod).price_after ≠ 0 ∧
    (fetch_wb_price nmId prod).nm_id = nmId ∧
    ∀ r : Row,
      r.price_after =
        some (reconcilePrices (fetch_wb_price nmId prod).price_before
          (fetch_wb_price nmId prod).price_after).2 →
      needRefresh 0 now r = false := by
  have hpb : (fetch_wb_price nmId prod).price_before = (extractPrices prod.sizes).1 := by
    simp [fetch_wb_price]
  have hpa : (fetch_wb_price nmId prod).price_after = (extractPrices prod.sizes).2 := by
    simp [fetch_wb_price]
  have hspec := extractPrices_spec prod.sizes
  rw [hpb, hpa]
  refine ⟨hspec, ?_, by simp [fetch_wb_price], ?_⟩
  · rcases hspec with ⟨_, h2⟩ | ⟨_, h2⟩
    · exact ne_of_gt h2
    · rw [h2]; norm_num
  · intro r hr
    exact needRefresh_of_pa_ne_zero now r _ hr (reconcile_ne_zero _ _ hspec)

/-- Concrete card used by the C10 witness: one size priced
`basic = 500`, `product = 300` (kopecks), so prices `5` and `3`. -/
def c10prod : WbProduct :=
  { brand := "b", name := "t", supplierId := some 1, supplier := some "s",
    sizes := [some { price := some { basic := some (.num 500),
                                     product := some (.num 300) } }] }

/-- Witness for C10 on the concrete card: the reconciled row with
`price_after = 3` is not due. -/
theorem fetch_wb_price_contract_witness :
    needRefresh 0 7
      { nm_id := 42, brand := "b", title := "t", seller_id := some 1,
        seller_name := some "s", price_before := some 5, price_after := some 3,
        ui_price := some 3, rrc := none, updated_at := some 7,
        sales_24h := none } = false :=
  (fetch_wb_price_contract 42 c10prod 7).2.2.2
    { nm_id := 42, brand := "b", title := "t", seller_id := some 1,
      seller_name := some "s", price_before := some 5, price_after := some 3,
      ui_price := some 3, rrc := none, updated_at := some 7,
      sales_24h := none }
    (by norm_num [c10prod, fetch_wb_price, extractPrices, sizeValidPrice,
      reconcilePrices])

/-! ## C1: the seller-level violation list -/

instance : IsTotal SellerViol violDesc :=
  ⟨fun a b => Nat.le_total b.violations a.violations⟩

instance : IsTrans SellerViol violDesc :=
  ⟨fun _ _ _ hab hbc => le_trans hbc hab⟩

/-- Counterexample for C1.  A row with a null display price whose raw
discounted price (5) is positive and below the floor (10) is a violation
under the claim's dual condition, but `list_sellers_with_violations`
ignores it: the code consults only the display price, unlike
`count_violations`. -/
theorem sellers_with_violations_counterexample :
    list_sellers_with_violations
        [{ nm_id := 1, brand := "b", title := "t", seller_id := some 1,
           seller_name := some "s", price_before := some 9,
           price_after := some 5, ui_price := none, rrc := some 10,
           updated_at := none, sales_24h := none }] ≠
      list_sellers_with_violations_spec
        [{ nm_id := 1, brand := "b", title := "t", seller_id := some 1,
           seller_name := some "s", price_before := some 9,
           price_after := some 5, ui_price := none, rrc := some 10,
           updated_at := none, sales_24h := none }] := by
  decide

/-- C1 as amended.  The seller-level list counts a product as a violation
exactly under the display-price-only condition (`ui_price` positive and
strictly below a positive `rrc`; the raw discounted price is not
consulted): every returned entry's count is the number of such rows of
that seller and is positive, every seller owning such a row is returned,
and the result is ordered descending by violation count. -/
theorem sellers_with_violations_amended (db : List Row) :
    (∀ e ∈ list_sellers_with_violations db,
        e.violations =
          ((violRows db).filter fun r => decide (r.seller_id = e.seller_id)).length ∧
        0 < e.violations) ∧
    (∀ r ∈ db, violUi r = true →
        ∃ e ∈ list_sellers_with_violations db, e.seller_id = r.seller_id) ∧
    List.Sorted violDesc (list_sellers_with_violations db) := by
  refine ⟨?_, ?_, ?_⟩
  · intro e he
    have he' := (List.perm_insertionSort violDesc _).subset he
    obtain ⟨sid, hsid, rfl⟩ := List.mem_map.mp he'
    refine ⟨rfl, ?_⟩
    have hsid' := List.mem_dedup.mp hsid
    obtain ⟨r, hr, hrs⟩ := List.mem_map.mp hsid'
    have hmem : r ∈ (violRows db).filter fun r => decide (r.seller_id = sid) :=
      List.mem_filter.mpr ⟨hr, by simp [hrs]⟩
    exact List.length_pos.mpr (List.ne_nil_of_mem hmem)
  · intro r hr hv
    have hrv : r ∈ violRows db := List.mem_filter.mpr ⟨hr, hv⟩
    have hdedup : r.seller_id ∈ ((violRows db).map (·.seller_id)).dedup :=
      List.mem_dedup.mpr (List.mem_map_of_mem _ hrv)
    exact ⟨_, (List.perm_insertionSort violDesc _).symm.subset
      (List.mem_map_of_mem _ hdedup), rfl⟩
  · exact List.sorted_insertionSort violDesc _

/-- Row with a genuine display-price violation for the C1 witness. -/
def c1vrow : Row :=
  { nm_id := 2, brand := "b", title := "t", seller_id := some 2,
    seller_name := some "v", price_before := some 20, price_after := some 5,
    ui_price := some 5, rrc := some 10, updated_at := none, sales_24h := none }

/-- Witness for C1 on a one-row catalog with a display-price violation. -/
theorem sellers_with_violations_amended_witness :
    (∃ e ∈ list_sellers_with_violations [c1vrow],
      e.seller_id = (some 2 : Option Int)) ∧
    List.Sorted violDesc (list_sellers_with_violations [c1vrow]) :=
  ⟨(sellers_with_violations_amended [c1vrow]).2.1 c1vrow (by decide) (by decide),
   (sellers_with_violations_amended [c1vrow]).2.2⟩

/-! ## C4: forced pagination -/

/-- Concatenating the first `n` chunks of size `m` of a list gives its
first `n * m` elements. -/
lemma flatMap_chunks (m : Nat) (l : List Nat) :
    ∀ n : Nat,
      ((List.range n).flatMap fun k => (l.drop (k * m)).take m) =
        l.take (n * m) := by
  intro n
  induction n with
  | zero => simp
  | succ n ih =>
    rw [List.range_succ, List.flatMap_append, ih, List.flatMap_cons,
      List.flatMap_nil, List.append_nil, Nat.succ_mul, List.take_add]

/-- Counterexample for C4.  `refresh_batch` has no paginated forced
variant: the handler never reads `force` or `offset`, so a call with
`force = true, offset = 0, limit = 1` on a one-product catalog whose row
is not due behaves exactly like a plain incremental call — it performs
zero fetches, returns no `next_offset`-style pagination state, and
reports `done` although the product was never visited. -/
theorem refresh_batch_force_counterexample :
    refresh_batch (fun _ => none) (fun _ => Except.error "x") 0 0 1 0 20 0
        { limit := some 1, silent := true, full := false, force := true, offset := 0 }
        { db := [{ nm_id := 1, brand := "", title := "", seller_id := none,
                   seller_name := none, price_before := some 9,
                   price_after := some 100, ui_price := some 100, rrc := none,
                   updated_at := some 3, sales_24h := none }],
          lockHeld := false, fetches := 0, upserts := 0 } =
      refresh_batch (fun _ => none) (fun _ => Except.error "x") 0 0 1 0 20 0
        { limit := some 1, silent := true, full := false, force := false, offset := 0 }
        { db := [{ nm_id := 1, brand := "", title := "", seller_id := none,
                   seller_name := none, price_before := some 9,
                   price_after := some 100, ui_price := some 100, rrc := none,
                   updated_at := some 3, sales_24h := none }],
          lockHeld := false, fetches := 0, upserts := 0 } ∧
    (refresh_batch (fun _ => none) (fun _ => Except.error "x") 0 0 1 0 20 0
        { limit := some 1, silent := true, full := false, force := true, offset := 0 }
        { db := [{ nm_id := 1, brand := "", title := "", seller_id := none,
                   seller_name := none, price_before := some 9,
                   price_after := some 100, ui_price := some 100, rrc := none,
                   updated_at := some 3, sales_24h := none }],
          lockHeld := false, fetches := 0, upserts := 0 }).1.fetches = 0 ∧
    count_all_rows
        [{ nm_id := 1, brand := "", title := "", seller_id := none,
           seller_name := none, price_before := some 9,
           price_after := some 100, ui_price := some 100, rrc := none,
           updated_at := some 3, sales_24h := none }] = 1 := by
  refine ⟨rfl, ?_, rfl⟩
  decide

/-- C4 as amended.  The caller-driven full enumeration the spec describes
exists only in the DB layer and is not wired to any `refresh_batch`
variant: `list_nm_ids_any` pages the catalog in ascending-id order, and
advancing the offset by `limit` per call visits every `product_id` exactly
once (the concatenation of the pages is a permutation of all ids) and
yields empty pages — termination — as soon as the offset reaches the
total row count. -/
theorem list_nm_ids_any_pagination (db : List Row) (limit : Nat) (h : 0 < limit) :
    (((List.range ((db.length + limit - 1) / limit)).flatMap fun k =>
        list_nm_ids_any limit (k * limit) db) =
      (db.map (·.nm_id)).insertionSort (· ≤ ·)) ∧
    ((db.map (·.nm_id)).insertionSort (· ≤ ·)).Perm (db.map (·.nm_id)) ∧
    (∀ off, db.length ≤ off → list_nm_ids_any limit off db = []) := by
  have hlen : ((db.map (·.nm_id)).insertionSort (· ≤ ·)).length = db.length := by
    rw [(List.perm_insertionSort _ _).length_eq, List.length_map]
  refine ⟨?_, List.perm_insertionSort _ _, ?_⟩
  · unfold list_nm_ids_any
    rw [flatMap_chunks]
    apply List.take_of_length_le
    rw [hlen]
    have h1 := Nat.div_add_mod (db.length + limit - 1) limit
    have h2 := Nat.mod_lt (db.length + limit - 1) h
    have h3 : ((db.length + limit - 1) / limit) * limit =
        limit * ((db.length + limit - 1) / limit) := Nat.mul_comm _ _
    omega
  · intro off hoff
    unfold list_nm_ids_any
    rw [List.drop_eq_nil_of_le (by rw [hlen]; exact hoff)]
    exact List.take_nil

/-- Witness for C4's pagination property on a two-row catalog with
page size 1. -/
theorem list_nm_ids_any_pagination_witness :
    (((List.range ((2 + 1 - 1) / 1)).flatMap fun k =>
        list_nm_ids_any 1 (k * 1)
          [{ nm_id := 5, brand := "", title := "", seller_id := none,
             seller_name := none, price_before := none, price_after := none,
             ui_price := none, rrc := none, updated_at := none, sales_24h := none },
           { nm_id := 3, brand := "", title := "", seller_id := none,
             seller_name := none, price_before := none, price_after := none,
             ui_price := none, rrc := none, updated_at := none, sales_24h := none }]) =
      (([{ nm_id := 5, brand := "", title := "", seller_id := none,
           seller_name := none, price_before := none, price_after := none,
           ui_price := none, rrc := none, updated_at := none, sales_24h := none },
         { nm_id := 3, brand := "", title := "", seller_id := none,
           seller_name := none, price_before := none, price_after := none,
           ui_price := none, rrc := none, updated_at := none,
           sales_24h := none }] : List Row).map (·.nm_id)).insertionSort (· ≤ ·)) :=
  (list_nm_ids_any_pagination
    [{ nm_id := 5, brand := "", title := "", seller_id := none,
       seller_name := none, price_before := none, price_after := none,
       ui_price := none, rrc := none, updated_at := none, sales_24h := none },
     { nm_id := 3, brand := "", title := "", seller_id := none,
       seller_name := none, price_before := none, price_after := none,
       ui_price := none, rrc := none, updated_at := none, sales_24h := none }]
    1 (by decide)).1

/-! ## C2: the -1 sentinel versus due-selection and violation detection -/

/-- Every id returned by the due-selection query comes from a row of the
table that satisfies the due predicate. -/
lemma mem_list_nm_ids_for_refresh (stale now limit : Nat) (db : List Row) (n : Nat)
    (h : n ∈ list_nm_ids_for_refresh stale now limit db) :
    ∃ r ∈ db, r.nm_id = n ∧ needRefresh stale now r = true := by
  unfold list_nm_ids_for_refresh at h
  have h1 := List.take_subset _ _ h
  obtain ⟨r, hr, rfl⟩ := List.mem_map.mp h1
  have h2 := (List.perm_insertionSort refreshLe _).subset hr
  have h3 := List.mem_filter.mp h2
  exact ⟨r, h3.1, rfl, h3.2⟩

/-- Counterexample for C2.  With staleness widening enabled
(`STALE_HOURS = 1`), a never-timestamped row with
`price_after_seller_discount = -1` IS selected for refresh; and a catalog
row with `price_after = -1` but a stored positive display price below the
floor makes its seller appear in the seller-level violation list. -/
theorem sentinel_row_counterexample :
    list_nm_ids_for_refresh 1 0 10
        [{ nm_id := 777, brand := "b", title := "t", seller_id := some 7,
           seller_name := some "s", price_before := some 0,
           price_after := some (-1), ui_price := some 5, rrc := some 10,
           updated_at := none, sales_24h := none }] = [777] ∧
    list_sellers_with_violations
        [{ nm_id := 777, brand := "b", title := "t", seller_id := some 7,
           seller_name := some "s", price_before := some 0,
           price_after := some (-1), ui_price := some 5, rrc := some 10,
           updated_at := none, sales_24h := none }] =
      [{ seller_id := some 7, seller_name := some "s", violations := 1 }] := by
  decide

/-- C2 as amended.  When staleness widening is disabled (`STALE_HOURS = 0`),
a row with `price_after_seller_discount = -1` is never among the ids the
due-selection query returns (given that every row sharing its id carries
the sentinel — ids are unique per catalog); and provided its display price
is null, as the refresh path always writes alongside the sentinel, the row
is not a violation row of the seller-level list. -/
theorem sentinel_row_amended (now limit : Nat) (db : List Row) (r : Row)
    (hr : r ∈ db) (hpa : r.price_after = some (-1))
    (hall : ∀ s ∈ db, s.nm_id = r.nm_id → s.price_after = some (-1)) :
    r.nm_id ∉ list_nm_ids_for_refresh 0 now limit db ∧
    (r.ui_price = none → r ∉ violRows db) := by
  constructor
  · intro hmem
    obtain ⟨s, hs, hnm, hneed⟩ := mem_list_nm_ids_for_refresh 0 now limit db _ hmem
    have hpa' := hall s hs hnm
    simp [needRefresh, hpa'] at hneed
  · intro hui hv
    have := (List.mem_filter.mp hv).2
    simp [violUi, hui] at this

/-- Witness for C2 on a one-row catalog holding the sentinel with a null
display price. -/
theorem sentinel_row_amended_witness :
    (777 ∉ list_nm_ids_for_refresh 0 0 10
        [{ nm_id := 777, brand := "b", title := "t", seller_id := some 7,
           seller_name := some "s", price_before := some 0,
           price_after := some (-1), ui_price := none, rrc := some 10,
           updated_at := none, sales_24h := none }]) ∧
    ({ nm_id := 777, brand := "b", title := "t", seller_id := some 7,
       seller_name := some "s", price_before := some 0,
       price_after := some (-1), ui_price := none, rrc := some 10,
       updated_at := none, sales_24h := none } : Row) ∉ violRows
        [{ nm_id := 777, brand := "b", title := "t", seller_id := some 7,
           seller_name := some "s", price_before := some 0,
           price_after := some (-1), ui_price := none, rrc := some 10,
           updated_at := none, sales_24h := none }] :=
  have h := sentinel_row_amended 0 10
    [{ nm_id := 777, brand := "b", title := "t", seller_id := some 7,
       seller_name := some "s", price_before := some 0,
       price_after := some (-1), ui_price := none, rrc := some 10,
       updated_at := none, sales_24h := none }]
    { nm_id := 777, brand := "b", title := "t", seller_id := some 7,
      seller_name := some "s", price_before := some 0,
      price_after := some (-1), ui_price := none, rrc := some 10,
      updated_at := none, sales_24h := none }
    (by decide) (by decide) (by decide)
  ⟨h.1, h.2 rfl⟩

/-! ## C8: per-item fetch failure semantics -/

/-- Rows of the table carrying a given product id. -/
def rowsFor (db : List Row) (n : Nat) : List Row :=
  db.filter fun r => decide (r.nm_id = n)

/-- A keyed in-place update whose payload preserves the id leaves the rows
of every other id untouched. -/
lemma rowsFor_map_keyed (n key : Nat) (g : Row → Row)
    (hg : ∀ r, (g r).nm_id = r.nm_id) (hk : key ≠ n) (db : List Row) :
    rowsFor (db.map fun r => if r.nm_id = key then g r else r) n = rowsFor db n := by
  induction db with
  | nil => rfl
  | cons r rest ih =>
    simp only [List.map_cons]
    unfold rowsFor at *
    simp only [List.filter_cons]
    by_cases hn : r.nm_id = n
    · have hrk : ¬ r.nm_id = key := fun hh => hk (by rw [← hh, hn])
      rw [if_neg hrk]
      have h2 : decide (r.nm_id = n) = true := decide_eq_true hn
      simp only [h2, if_true, ih]
    · by_cases hrk : r.nm_id = key
      · rw [if_pos hrk]
        have h1 : decide ((g r).nm_id = n) = false := by
          simp [hg r, hn]
        have h2 : decide (r.nm_id = n) = false := by simp [hn]
        simp only [h1, h2, Bool.false_eq_true, if_false, ih]
      · rw [if_neg hrk]
        have h2 : decide (r.nm_id = n) = false := by simp [hn]
        simp only [h2, Bool.false_eq_true, if_false, ih]

/-- `upsert_product` keyed at another id leaves the rows of id `n`
untouched. -/
lemma rowsFor_upsert_ne (now : Nat) (a : UpsertArgs) (db : List Row) (n : Nat)
    (h : a.nm_id ≠ n) :
    rowsFor (upsert_product now a db) n = rowsFor db n := by
  unfold upsert_product
  split
  · refine rowsFor_map_keyed n a.nm_id _ ?_ h db
    intro r
    rfl
  · unfold rowsFor
    rw [List.filter_append]
    simp [h]

/-- `set_rrc` keyed at another id leaves the rows of id `n` untouched. -/
lemma rowsFor_set_rrc_ne (now j : Nat) (v : Option ℚ) (db : List Row) (n : Nat)
    (h : j ≠ n) :
    rowsFor (set_rrc now j v db) n = rowsFor db n := by
  unfold set_rrc
  refine rowsFor_map_keyed n j _ ?_ h db
  intro r
  rfl

/-- Every selected id is accounted for: it lands in `updated` or in
`errors`, so one item's failure never aborts the batch. -/
lemma processIds_length (heur : String → Option ℚ)
    (fetch : Nat → Except String Fetched) (wallet thr step : ℚ) (now : Nat)
    (ids : List Nat) :
    ∀ db : List Row,
      (processIds heur fetch wallet thr step now ids db).2.1.length +
        (processIds heur fetch wallet thr step now ids db).2.2.length =
      ids.length := by
  induction ids with
  | nil => intro db; rfl
  | cons j rest ih =>
    intro db
    cases hj : fetch j with
    | error e2 =>
      simp only [processIds, hj, List.length_cons]
      have := ih db
      omega
    | ok d =>
      simp only [processIds, hj, List.length_cons]
      have := ih (match heur d.title with
        | some v => set_rrc now j (some v) (upsert_product now
            { nm_id := d.nm_id, brand := d.brand, title := d.title,
              price_before := (reconcilePrices d.price_before d.price_after).1,
              price_after := (reconcilePrices d.price_before d.price_after).2,
              seller_id := d.seller_id, seller_name := d.seller_name,
              ui_price := calc_ui_price_from_product wallet thr step
                (some (reconcilePrices d.price_before d.price_after).2),
              sales_24h := none } db)
        | none => upsert_product now
            { nm_id := d.nm_id, brand := d.brand, title := d.title,
              price_before := (reconcilePrices d.price_before d.price_after).1,
              price_after := (reconcilePrices d.price_before d.price_after).2,
              seller_id := d.seller_id, seller_name := d.seller_name,
              ui_price := calc_ui_price_from_product wallet thr step
                (some (reconcilePrices d.price_before d.price_after).2),
              sales_24h := none } db)
      omega

/-- An id whose fetch raises is never recorded as updated. -/
lemma processIds_not_updated (heur : String → Option ℚ)
    (fetch : Nat → Except String Fetched) (wallet thr step : ℚ) (now : Nat)
    (id : Nat) (e : String) (hf : fetch id = Except.error e) (ids : List Nat) :
    ∀ db : List Row, id ∉ (processIds heur fetch wallet thr step now ids db).2.1 := by
  induction ids with
  | nil => intro db; simp [processIds]
  | cons j rest ih =>
    intro db
    cases hj : fetch j with
    | error e2 => simpa only [processIds, hj] using ih db
    | ok d =>
      simp only [processIds, hj, List.mem_cons, not_or]
      refine ⟨?_, ih _⟩
      intro hc
      rw [← hc, hf] at hj
      exact Except.noConfusion hj

/-- An id whose fetch raises is recorded in the error list with its
message whenever it was selected. -/
lemma processIds_error_mem (heur : String → Option ℚ)
    (fetch : Nat → Except String Fetched) (wallet thr step : ℚ) (now : Nat)
    (id : Nat) (e : String) (hf : fetch id = Except.error e) (ids : List Nat) :
    ∀ db : List Row, id ∈ ids →
      (id, e) ∈ (processIds heur fetch wallet thr step now ids db).2.2 := by
  induction ids with
  | nil => intro db h; cases h
  | cons j rest ih =>
    intro db hmem
    by_cases hji : j = id
    · subst hji
      simp only [processIds, hf]
      exact List.mem_cons_self _ _
    · have hmem' : id ∈ rest := by
        rcases List.mem_cons.mp hmem with h | h
        · exact absurd h.symm hji
        · exact h
      cases hj : fetch j with
      | error e2 =>
        simp only [processIds, hj]
        exact List.mem_cons_of_mem _ (ih db hmem')
      | ok d =>
        simp only [processIds, hj]
        exact ih _ hmem'

/-- A batch whose fetch of `id` raises leaves the rows of `id` exactly as
they were (no upsert, no floor-price write for that item). -/
lemma processIds_rowsFor (heur : String → Option ℚ)
    (fetch : Nat → Except String Fetched) (wallet thr step : ℚ) (now : Nat)
    (id : Nat) (e : String) (hf : fetch id = Except.error e)
    (hnm : ∀ j d, fetch j = Except.ok d → d.nm_id = j) (ids : List Nat) :
    ∀ db : List Row,
      rowsFor (processIds heur fetch wallet thr step now ids db).1 id =
        rowsFor db id := by
  induction ids with
  | nil => intro db; rfl
  | cons j rest ih =>
    intro db
    cases hj : fetch j with
    | error e2 => simpa only [processIds, hj] using ih db
    | ok d =>
      have hdnm : d.nm_id = j := hnm j d hj
      have hjid : j ≠ id := by
        intro hc
        rw [hc, hf] at hj
        exact Except.noConfusion hj
      have hkey : d.nm_id ≠ id := by rw [hdnm]; exact hjid
      simp only [processIds, hj]
      rw [ih]
      cases hh : heur d.title with
      | none =>
        simp only [hh]
        exact rowsFor_upsert_ne now _ db id hkey
      | some v =>
        simp only [hh]
        rw [rowsFor_set_rrc_ne now j (some v) _ id hjid]
        exact rowsFor_upsert_ne now _ db id hkey

/-- A row due at some instant stays due at any later instant (staleness
only widens with time; the base clause is time-independent). -/
lemma needRefresh_mono (stale now now2 : Nat) (h : now ≤ now2) (r : Row)
    (hd : needRefresh stale now r = true) : needRefresh stale now2 r = true := by
  unfold needRefresh at *
  by_cases hs : 0 < stale
  · simp only [hs, if_true] at hd ⊢
    cases hu : r.updated_at with
    | none => simp [hu]
    | some t =>
      rw [hu] at hd
      simp only [Option.isNone_some, Bool.or_false, Bool.or_eq_true,
        decide_eq_true_eq] at hd ⊢
      rcases hd with hb | hb
      · exact Or.inl hb
      · right
        omega
  · simpa only [hs, if_false] using hd

/-- C8.  If the Price Source fetch of a selected item raises, the batch
records `{id, error}` in its error list, never marks the id updated,
leaves the id's rows untouched in the store, still accounts for every
selected item (the failure aborts nothing), and the id's row remains due
at the same and at every later instant. -/
theorem fetch_failure_semantics (heur : String → Option ℚ)
    (fetch : Nat → Except String Fetched) (wallet thr step : ℚ)
    (stale now limit : Nat) (db : List Row) (id : Nat) (e : String)
    (hid : id ∈ list_nm_ids_for_refresh stale now limit db)
    (hf : fetch id = Except.error e)
    (hnm : ∀ j d, fetch j = Except.ok d → d.nm_id = j) :
    ((id, e) ∈ (do_one_batch heur fetch wallet thr step stale now limit db).2.2.1) ∧
    (id ∉ (do_one_batch heur fetch wallet thr step stale now limit db).2.1) ∧
    rowsFor (do_one_batch heur fetch wallet thr step stale now limit db).1 id =
      rowsFor db id ∧
    ((do_one_batch heur fetch wallet thr step stale now limit db).2.1.length +
      (do_one_batch heur fetch wallet thr step stale now limit db).2.2.1.length =
      (list_nm_ids_for_refresh stale now limit db).length) ∧
    ∃ r ∈ (do_one_batch heur fetch wallet thr step stale now limit db).1,
      r.nm_id = id ∧ ∀ now2, now ≤ now2 → needRefresh stale now2 r = true := by
  simp only [do_one_batch]
  refine ⟨processIds_error_mem heur fetch wallet thr step now id e hf _ db hid,
    processIds_not_updated heur fetch wallet thr step now id e hf _ db,
    processIds_rowsFor heur fetch wallet thr step now id e hf hnm _ db,
    processIds_length heur fetch wallet thr step now _ db, ?_⟩
  obtain ⟨r, hrdb, hrnm, hrneed⟩ :=
    mem_list_nm_ids_for_refresh stale now limit db id hid
  have hrin : r ∈ rowsFor db id :=
    List.mem_filter.mpr ⟨hrdb, by simpa using hrnm⟩
  rw [← processIds_rowsFor heur fetch wallet thr step now id e hf hnm
    (list_nm_ids_for_refresh stale now limit db) db] at hrin
  exact ⟨r, (List.mem_filter.mp hrin).1, hrnm,
    fun now2 h2 => needRefresh_mono stale now now2 h2 r hrneed⟩

/-- One-row catalog used by the C8 witness: the row was never priced, so
it is due. -/
def c8db : List Row :=
  [{ nm_id := 1, brand := "", title := "", seller_id := none,
     seller_name := none, price_before := none, price_after := none,
     ui_price := none, rrc := none, updated_at := none, sales_24h := none }]

/-- Witness for C8: the single due item fails with "boom" and is recorded,
skipped and still due. -/
theorem fetch_failure_semantics_witness :
    ((1, "boom") ∈ (do_one_batch (fun _ => none) (fun _ => Except.error "boom")
        0 0 1 0 0 5 c8db).2.2.1) ∧
    (1 ∉ (do_one_batch (fun _ => none) (fun _ => Except.error "boom")
        0 0 1 0 0 5 c8db).2.1) ∧
    rowsFor (do_one_batch (fun _ => none) (fun _ => Except.error "boom")
        0 0 1 0 0 5 c8db).1 1 = rowsFor c8db 1 ∧
    ((do_one_batch (fun _ => none) (fun _ => Except.error "boom")
        0 0 1 0 0 5 c8db).2.1.length +
      (do_one_batch (fun _ => none) (fun _ => Except.error "boom")
        0 0 1 0 0 5 c8db).2.2.1.length =
      (list_nm_ids_for_refresh 0 0 5 c8db).length) ∧
    ∃ r ∈ (do_one_batch (fun _ => none) (fun _ => Except.error "boom")
        0 0 1 0 0 5 c8db).1,
      r.nm_id = 1 ∧ ∀ now2, 0 ≤ now2 → needRefresh 0 now2 r = true :=
  fetch_failure_semantics (fun _ => none) (fun _ => Except.error "boom")
    0 0 1 0 0 5 c8db 1 "boom" (by decide) rfl (fun _ _ h => Except.noConfusion h)

/-! ## C9: the upsert contract -/

/-- C9.  `upsert_product` never touches the stored `rrc` of an existing
row, stamps `updated_at = NOW()` on the row it writes, and is idempotent:
a second call with identical arguments leaves the store exactly as a
single call at the later timestamp would. -/
theorem upsert_product_contract (now now2 : Nat) (a : UpsertArgs) (db : List Row) :
    ((db.any fun r => decide (r.nm_id = a.nm_id)) = true →
        (upsert_product now a db).map (·.rrc) = db.map (·.rrc)) ∧
    (∀ r ∈ upsert_product now a db, r.nm_id = a.nm_id → r.updated_at = some now) ∧
    upsert_product now2 a (upsert_product now a db) = upsert_product now2 a db := by
  refine ⟨?_, ?_, ?_⟩
  · intro h
    simp only [upsert_product, h, if_true]
    rw [List.map_map]
    apply List.map_congr_left
    intro r _
    by_cases hr : r.nm_id = a.nm_id <;> simp [hr]
  · intro r hr hnm
    cases h : (db.any fun r => decide (r.nm_id = a.nm_id)) with
    | true =>
      simp only [upsert_product, h, if_true] at hr
      obtain ⟨s, hs, rfl⟩ := List.mem_map.mp hr
      by_cases hsnm : s.nm_id = a.nm_id
      · simp [hsnm]
      · simp [hsnm] at hnm
    | false =>
      have hne : ∀ s ∈ db, ¬ s.nm_id = a.nm_id := by
        simpa using List.any_eq_false.mp h
      simp only [upsert_product, h, Bool.false_eq_true, if_false] at hr
      rcases List.mem_append.mp hr with hmem | hnew
      · exact absurd hnm (hne r hmem)
      · rw [List.mem_singleton] at hnew
        rw [hnew]
  · cases h : (db.any fun r => decide (r.nm_id = a.nm_id)) with
    | true =>
      have hmapany : ((db.map fun r =>
          if r.nm_id = a.nm_id then
            { r with
              brand := a.brand, title := a.title, seller_id := a.seller_id,
              seller_name := a.seller_name, price_before := some a.price_before,
              price_after := some a.price_after, ui_price := a.ui_price,
              updated_at := some now,
              sales_24h :=
                match a.sales_24h with
                | some v => some v
                | none => r.sales_24h }
          else r).any fun r => decide (r.nm_id = a.nm_id)) = true := by
        obtain ⟨s, hs, hps⟩ := List.any_eq_true.mp h
        simp only [decide_eq_true_eq] at hps
        apply List.any_eq_true.mpr
        refine ⟨_, List.mem_map_of_mem _ hs, ?_⟩
        simp [hps]
      simp only [upsert_product, h, if_true, hmapany]
      rw [List.map_map]
      apply List.map_congr_left
      intro r _
      by_cases hr : r.nm_id = a.nm_id
      · cases hsales : a.sales_24h <;> simp [hr]
      · simp [hr]
    | false =>
      have hne : ∀ s ∈ db, ¬ s.nm_id = a.nm_id := by
        simpa using List.any_eq_false.mp h
      simp only [upsert_product, h, Bool.false_eq_true, if_false, List.any_append,
        List.any_cons, List.any_nil, Bool.false_or, Bool.or_false, decide_eq_true_eq]
      simp only [if_true, List.map_append]
      have hdbmap : (db.map fun r =>
          if r.nm_id = a.nm_id then
            { r with
              brand := a.brand, title := a.title, seller_id := a.seller_id,
              seller_name := a.seller_name, price_before := some a.price_before,
              price_after := some a.price_after, ui_price := a.ui_price,
              updated_at := some now2,
              sales_24h :=
                match a.sales_24h with
                | some v => some v
                | none => r.sales_24h }
          else r) = db := by
        conv_rhs => rw [(List.map_id db).symm]
        apply List.map_congr_left
        intro r hmem
        simp [hne r hmem]
      rw [hdbmap]
      congr 1
      cases hsales : a.sales_24h <;> simp

/-- Concrete row used by the C9 witness. -/
def c9row : Row :=
  { nm_id := 1, brand := "old", title := "old", seller_id := some 3,
    seller_name := some "s", price_before := some 5, price_after := some 6,
    ui_price := some 6, rrc := some 99, updated_at := some 4, sales_24h := some 2 }

/-- Concrete arguments used by the C9 witness. -/
def c9args : UpsertArgs :=
  { nm_id := 1, brand := "b", title := "t", price_before := 10, price_after := 20,
    seller_id := some 3, seller_name := some "s", ui_price := some 20,
    sales_24h := none }

/-- Witness for C9 on a one-row table whose row matches the upsert key. -/
theorem upsert_product_contract_witness :
    ((upsert_product 5 c9args [c9row]).map (·.rrc) = [c9row].map (·.rrc)) ∧
    upsert_product 6 c9args (upsert_product 5 c9args [c9row]) =
      upsert_product 6 c9args [c9row] :=
  ⟨(upsert_product_contract 5 6 c9args [c9row]).1 (by decide),
   (upsert_product_contract 5 6 c9args [c9row]).2.2⟩

/-- Witness for C7 at `wallet = 0`, `thr = 0`, `step = 1`, bases `1 ≤ 2`. -/
theorem calc_ui_price_monotone_amended_witness :
    (0 : ℚ) ≤ 0 ∧ (0 : ℚ) ≤ 1 ∧ (0 : ℚ) < 1 ∧ (1 : ℚ) ≤ 2 ∧ (1 : Int) ≤ 2 := by
  refine ⟨le_refl 0, by norm_num, by norm_num, by norm_num, ?_⟩
  have e1 : calc_ui_price_from_product 0 0 1 (some 1) = some 1 := by
    simp [calc_ui_price_from_product]
  have e2 : calc_ui_price_from_product 0 0 1 (some 2) = some 2 := by
    simp [calc_ui_price_from_product]
  exact calc_ui_price_monotone_amended 0 0 1 1 2 1 2 (le_refl 0) (by norm_num)
    (by norm_num) (by norm_num) (Or.inr (le_refl 0)) e1 e2

end MPWeb
